import Mathlib

/-
Shallow embedding of the aeron-rs concurrent buffer layer
(src/aeron-rs/src/concurrent/ringbuffer.rs, src/aeron-rs/src/concurrent/mod.rs,
src/aeron-rs/src/client/concurrent/broadcast.rs, src/aeron-rs/src/util.rs).

Modelling conventions:
- `IndexT` (Rust i32) and i64 values are modelled as `Int`; wherever the source
  performs a narrowing cast (`as i32`, `as u32`, `as usize`, `as i64`) the model
  applies the corresponding two's-complement reduction explicitly.
- The backing byte region is a total function `Int → Int` holding one byte per
  offset (writers store values already reduced mod 256); its length is carried
  alongside in `Buf` and all checked accessors perform the same bounds check as
  the source.
- Multi-byte reads and writes are little-endian, exactly as the wire contract
  mandates (the crate only supports little-endian targets).
- The code under analysis is lock-free but we model the sequential executions
  that the claims describe: volatile/ordered accesses coincide with plain ones
  and the compare-and-set in `claim_capacity` always succeeds on the first
  pass because `tail` was just read from the same unmodified location, so the
  do-while body executes exactly once.
-/

namespace Aeron

/-- Error kinds surfaced at the boundary (src/aeron-rs/src/util.rs, `AeronError`). -/
inductive AeronError where
  | IllegalArgument
  | OutOfBounds
  | InsufficientCapacity
  | IllegalState
deriving DecidableEq, Repr

/-- Interpret an unsigned value `u` (expected in `[0, 2^w)`) as a `w`-bit
two's-complement signed integer. -/
def toSigned (w : Nat) (u : Int) : Int :=
  if u < 2 ^ (w - 1) then u else u - 2 ^ w

/-- The Rust `as i32` narrowing cast on an integer value. -/
def i32cast (v : Int) : Int := toSigned 32 (v % 2 ^ 32)

/-- The Rust `as i64` narrowing cast on an integer value. -/
def i64cast (v : Int) : Int := toSigned 64 (v % 2 ^ 64)

/-- `util::bit::align`: `(val + (alignment - 1)) & !(alignment - 1)`.
For a power-of-two `alignment` the bit-clear of the low bits equals
subtracting the euclidean remainder. -/
def align (val alignment : Int) : Int :=
  val + (alignment - 1) - (val + (alignment - 1)) % alignment

/-- `u32::is_power_of_two` per its contract: true iff the value is `2^k`
for some `k` (a u32 power of two has exponent below 32). -/
def u32_is_power_of_two (n : Int) : Bool :=
  (List.range 32).any (fun k => n == 2 ^ k)

/-- `util::bit::is_power_of_two`: `idx > 0 && (idx as u32).is_power_of_two()`.
The guard ensures `idx` is positive, in which case the `as u32` cast of an
`i32` is the identity. -/
def is_power_of_two (idx : Int) : Bool :=
  decide (0 < idx) && u32_is_power_of_two idx

/-- Store `w` bytes of `v` at `off`, little-endian.  Euclidean `%`/`/` give the
two's-complement byte decomposition for negative `v` as well. -/
def putBytesLE (m : Int → Int) (off : Int) (w : Nat) (v : Int) : Int → Int :=
  match w with
  | 0 => m
  | n + 1 => putBytesLE (fun x => if x = off then v % 256 else m x) (off + 1) n (v / 256)

/-- Read `w` bytes at `off`, little-endian, as an unsigned value in `[0, 2^(8w))`. -/
def getBytesLE (m : Int → Int) (off : Int) (w : Nat) : Int :=
  match w with
  | 0 => 0
  | n + 1 => m off % 256 + 256 * getBytesLE m (off + 1) n

/-- Raw (bounds-unchecked) typed read of an i32 at a byte offset. -/
def read_i32 (m : Int → Int) (off : Int) : Int := toSigned 32 (getBytesLE m off 4)

/-- Raw (bounds-unchecked) typed read of an i64 at a byte offset. -/
def read_i64 (m : Int → Int) (off : Int) : Int := toSigned 64 (getBytesLE m off 8)

/-- Extract `n` bytes starting at `off` as a list (a `&[u8]` slice handed to a
handler). -/
def readBytesList (m : Int → Int) (off : Int) (n : Nat) : List Int :=
  match n with
  | 0 => []
  | k + 1 => m off % 256 :: readBytesList m (off + 1) k

/-- A byte region together with its length: the backing store of an
`AtomicBuffer` implementation (`Vec<u8>`, `&mut [u8]`, `MmapMut`). -/
structure Buf where
  len : Int
  mem : Int → Int

/-- `concurrent::mod.rs` `bounds_check_slice`: fails with OutOfBounds when
`offset < 0 || size < 0 || slice.len() as IndexT - offset < size`. -/
def bounds_check_slice (len offset size : Int) : Except AeronError Unit :=
  if offset < 0 ∨ size < 0 ∨ i32cast len - offset < size then
    .error .OutOfBounds
  else
    .ok ()

/-- `AtomicBuffer::bounds_check`. -/
def Buf.bounds_check (b : Buf) (offset size : Int) : Except AeronError Unit :=
  bounds_check_slice b.len offset size

/-- `AtomicBuffer::capacity`: `self.len() as IndexT`. -/
def Buf.capacity (b : Buf) : Int := i32cast b.len

/-- `AtomicBuffer::get_i64` (plain read through `overlay::<i64>`). -/
def Buf.get_i64 (b : Buf) (offset : Int) : Except AeronError Int := do
  b.bounds_check offset 8
  return read_i64 b.mem offset

/-- `AtomicBuffer::get_i64_volatile`; in the sequential model a volatile read
returns the same bytes as a plain read. -/
def Buf.get_i64_volatile (b : Buf) (offset : Int) : Except AeronError Int := do
  b.bounds_check offset 8
  return read_i64 b.mem offset

/-- `AtomicBuffer::get_i32`. -/
def Buf.get_i32 (b : Buf) (offset : Int) : Except AeronError Int := do
  b.bounds_check offset 4
  return read_i32 b.mem offset

/-- `AtomicBuffer::get_i32_volatile`. -/
def Buf.get_i32_volatile (b : Buf) (offset : Int) : Except AeronError Int := do
  b.bounds_check offset 4
  return read_i32 b.mem offset

/-- `AtomicBuffer::put_i64_ordered` (release-ordered 64-bit store). -/
def Buf.put_i64_ordered (b : Buf) (offset value : Int) : Except AeronError Buf := do
  b.bounds_check offset 8
  return ⟨b.len, putBytesLE b.mem offset 8 value⟩

/-- `AtomicBuffer::put_i32_ordered` (release-ordered 32-bit store). -/
def Buf.put_i32_ordered (b : Buf) (offset value : Int) : Except AeronError Buf := do
  b.bounds_check offset 4
  return ⟨b.len, putBytesLE b.mem offset 4 value⟩

/-- `AtomicBuffer::set_memory`: bounds check, then `write_bytes` over the range. -/
def Buf.set_memory (b : Buf) (offset length value : Int) : Except AeronError Buf := do
  b.bounds_check offset length
  return ⟨b.len, fun x => if offset ≤ x ∧ x < offset + length then value % 256 else b.mem x⟩

/-- `AtomicBuffer::put_bytes`: both regions bounds-checked, then a plain copy. -/
def Buf.put_bytes (b : Buf) (index : Int) (source : Buf) (source_index len : Int) :
    Except AeronError Buf := do
  b.bounds_check index len
  source.bounds_check source_index len
  return ⟨b.len, fun x =>
    if index ≤ x ∧ x < index + len then source.mem (source_index + (x - index)) else b.mem x⟩

/-- `AtomicBuffer::compare_and_set_i64` (sequentially consistent CAS): in the
sequential model it reads the current encoded value, compares, and writes. -/
def Buf.compare_and_set_i64 (b : Buf) (offset expected update : Int) :
    Except AeronError (Bool × Buf) := do
  b.bounds_check offset 8
  if read_i64 b.mem offset = expected then
    return (true, ⟨b.len, putBytesLE b.mem offset 8 update⟩)
  else
    return (false, b)

namespace buffer_descriptor

/-- `CACHE_LINE_LENGTH * 2`. -/
def TAIL_POSITION_OFFSET : Int := 128

/-- `CACHE_LINE_LENGTH * 4`. -/
def HEAD_CACHE_POSITION_OFFSET : Int := 256

/-- `CACHE_LINE_LENGTH * 6`. -/
def HEAD_POSITION_OFFSET : Int := 384

/-- `CACHE_LINE_LENGTH * 8`. -/
def CORRELATION_COUNTER_OFFSET : Int := 512

/-- `CACHE_LINE_LENGTH * 10`. -/
def CONSUMER_HEARTBEAT_OFFSET : Int := 640

/-- `CACHE_LINE_LENGTH * 12`. -/
def TRAILER_LENGTH : Int := 768

/-- `buffer_descriptor::check_capacity`. -/
def check_capacity (capacity : Int) : Except AeronError Unit :=
  if is_power_of_two capacity then .ok () else .error .IllegalArgument

end buffer_descriptor

namespace record_descriptor

/-- Two i32 fields: length then message type. -/
def HEADER_LENGTH : Int := 8

/-- `ALIGNMENT = HEADER_LENGTH`. -/
def ALIGNMENT : Int := HEADER_LENGTH

/-- Message type marking a padding record. -/
def PADDING_MSG_TYPE_ID : Int := -1

/-- `((i64::from(msg_type_id) & 0xFFFF_FFFF) << 32) | (i64::from(length) & 0xFFFF_FFFF)`:
masking with `0xFFFF_FFFF` is reduction mod `2^32`, and the OR of the two
disjoint 32-bit halves is their sum; the result is an i64 value. -/
def make_header (length msg_type_id : Int) : Int :=
  toSigned 64 (msg_type_id % 2 ^ 32 * 2 ^ 32 + length % 2 ^ 32)

/-- `check_msg_type_id`: fails with IllegalArgument when `msg_type_id < 1`. -/
def check_msg_type_id (msg_type_id : Int) : Except AeronError Unit :=
  if msg_type_id < 1 then .error .IllegalArgument else .ok ()

/-- `encoded_msg_offset`. -/
def encoded_msg_offset (record_offset : Int) : Int := record_offset + HEADER_LENGTH

/-- `length_offset`. -/
def length_offset (record_offset : Int) : Int := record_offset

/-- `type_offset`. -/
def type_offset (record_offset : Int) : Int := record_offset + 4

/-- `record_length(header)`: `header as i32`, the low 32 bits of the header. -/
def record_length (header : Int) : Int := i32cast header

/-- `message_type_id(header)`: `(header >> 32) as i32`.  The arithmetic shift
followed by i32 truncation extracts bits 32..63 of the two's-complement
representation, i.e. the upper half of the unsigned image of the header. -/
def message_type_id (header : Int) : Int := i32cast (header % 2 ^ 64 / 2 ^ 32)

end record_descriptor

/-- `const INSUFFICIENT_CAPACITY: IndexT = -2`. -/
def INSUFFICIENT_CAPACITY : Int := -2

/-- `ManyToOneRingBuffer` state: the backing buffer plus the derived field
offsets computed once at construction. -/
structure ManyToOneRingBuffer where
  buffer : Buf
  capacity : Int
  max_msg_length : Int
  tail_position_index : Int
  head_cache_position_index : Int
  head_position_index : Int
  correlation_id_counter_index : Int
  consumer_heartbeat_index : Int

namespace ManyToOneRingBuffer

/-- `ManyToOneRingBuffer::new`. -/
def new (buffer : Buf) : Except AeronError ManyToOneRingBuffer := do
  let capacity := buffer.capacity - buffer_descriptor.TRAILER_LENGTH
  buffer_descriptor.check_capacity capacity
  return { buffer := buffer
           capacity := capacity
           max_msg_length := capacity / 8
           tail_position_index := capacity + buffer_descriptor.TAIL_POSITION_OFFSET
           head_cache_position_index := capacity + buffer_descriptor.HEAD_CACHE_POSITION_OFFSET
           head_position_index := capacity + buffer_descriptor.HEAD_POSITION_OFFSET
           correlation_id_counter_index := capacity + buffer_descriptor.CORRELATION_COUNTER_OFFSET
           consumer_heartbeat_index := capacity + buffer_descriptor.CONSUMER_HEARTBEAT_OFFSET }

/-- `check_msg_length`: fails with IllegalArgument when `length > max_msg_length`. -/
def check_msg_length (rb : ManyToOneRingBuffer) (length : Int) : Except AeronError Unit :=
  if length > rb.max_msg_length then .error .IllegalArgument else .ok ()

/-- `claim_capacity`, sequential execution.  The do-while body runs exactly
once: the CAS on `tail_position` compares against the `tail` just
volatile-read from the same location, and no other producer runs in the
modelled execution, so it succeeds on the first pass.  The source reads the
head cache with `.unwrap()`; the model propagates the (impossible for a
constructed ring) bounds error instead of panicking.  `x & mask` for the
all-ones mask `capacity - 1` is the euclidean remainder `x % capacity`. -/
def claim_capacity (rb : ManyToOneRingBuffer) (required : Int) :
    Except AeronError (Int × ManyToOneRingBuffer) := do
  let mask : Int := rb.capacity - 1
  let mut buf := rb.buffer
  let mut head ← buf.get_i64_volatile rb.head_cache_position_index
  let tail ← buf.get_i64_volatile rb.tail_position_index
  let available_capacity := rb.capacity - i32cast (tail - head)
  if required > available_capacity then
    head ← buf.get_i64_volatile rb.head_position_index
    if required > rb.capacity - i32cast (tail - head) then
      return (INSUFFICIENT_CAPACITY, { rb with buffer := buf })
    buf ← buf.put_i64_ordered rb.head_cache_position_index head
  let mut padding : Int := 0
  let mut tail_index := i32cast (tail % (mask + 1))
  let to_buffer_end_length := rb.capacity - tail_index
  if required > to_buffer_end_length then
    let mut head_index := i32cast (head % (mask + 1))
    if required > head_index then
      head ← buf.get_i64_volatile rb.head_position_index
      head_index := i32cast (head % (mask + 1))
      if required > head_index then
        return (INSUFFICIENT_CAPACITY, { rb with buffer := buf })
      buf ← buf.put_i64_ordered rb.head_cache_position_index head
    padding := to_buffer_end_length
  let casr ← buf.compare_and_set_i64 rb.tail_position_index tail (tail + required + padding)
  buf := casr.2
  if padding ≠ 0 then
    buf ← buf.put_i64_ordered tail_index
      (record_descriptor.make_header padding record_descriptor.PADDING_MSG_TYPE_ID)
    tail_index := 0
  return (tail_index, { rb with buffer := buf })

/-- `ManyToOneRingBuffer::write`.  The three stores after `claim_capacity`
use `.unwrap()` in the source (bounds already checked by the claim); the
model propagates the impossible error instead of panicking.
`record_len as usize` sign-extends to 64 bits, `bit::align` operates on that
usize, and the result is narrowed back to `IndexT`. -/
def write (rb : ManyToOneRingBuffer) (msg_type_id : Int) (source : Buf)
    (source_index length : Int) : Except AeronError (Bool × ManyToOneRingBuffer) := do
  record_descriptor.check_msg_type_id msg_type_id
  rb.check_msg_length length
  let record_len := length + record_descriptor.HEADER_LENGTH
  let required := i32cast (align (record_len % 2 ^ 64) record_descriptor.ALIGNMENT)
  let (record_index, rb1) ← rb.claim_capacity required
  if record_index = INSUFFICIENT_CAPACITY then
    return (false, rb1)
  let buf1 ← rb1.buffer.put_i64_ordered record_index
    (record_descriptor.make_header (-length) msg_type_id)
  let buf2 ← buf1.put_bytes (record_descriptor.encoded_msg_offset record_index)
    source source_index length
  let buf3 ← buf2.put_i32_ordered (record_descriptor.length_offset record_index) record_len
  return (true, { rb1 with buffer := buf3 })

end ManyToOneRingBuffer

/-- Observable outcome of the consumer loop inside `read_n`: the propagated
result of the closure, the loop counters, and the sequence of handler
invocations `(msg_type_id, payload bytes)` made along the way. -/
structure ReadLoopOut where
  res : Except AeronError Unit
  bytes_read : Int
  messages_read : Nat
  calls : List (Int × List Int)

/-- The `while` loop inside `ManyToOneRingBuffer::read_n`.  `fuel` is a
recursion bound only: every iteration advances `bytes_read` by at least
`ALIGNMENT` (8) bytes, so `read_n` passes enough fuel that it is never
exhausted; on exhaustion the loop reports its state so far.
`record_length as usize` is the identity on the positive lengths reaching
`align` here, and the loop invokes the handler for every non-padding record,
recording the call instead of performing the side effect. -/
def readLoop (buf : Buf) (head_index contiguous_block_length : Int) (limit : Nat)
    (fuel : Nat) (bytes_read : Int) (messages_read : Nat)
    (calls : List (Int × List Int)) : ReadLoopOut :=
  match fuel with
  | 0 => ⟨.ok (), bytes_read, messages_read, calls⟩
  | f + 1 =>
    if bytes_read < contiguous_block_length ∧ messages_read < limit then
      let record_index := head_index + bytes_read
      match buf.get_i64_volatile record_index with
      | .error e => ⟨.error e, bytes_read, messages_read, calls⟩
      | .ok header =>
        let record_length := record_descriptor.record_length header
        if record_length ≤ 0 then
          ⟨.ok (), bytes_read, messages_read, calls⟩
        else
          let bytes_read1 := bytes_read + align record_length record_descriptor.ALIGNMENT
          let msg_type_id := record_descriptor.message_type_id header
          if msg_type_id = record_descriptor.PADDING_MSG_TYPE_ID then
            readLoop buf head_index contiguous_block_length limit f bytes_read1
              messages_read calls
          else
            let msg_start := record_descriptor.encoded_msg_offset record_index
            let payload :=
              readBytesList buf.mem msg_start
                (record_length - record_descriptor.HEADER_LENGTH).toNat
            readLoop buf head_index contiguous_block_length limit f bytes_read1
              (messages_read + 1) (calls ++ [(msg_type_id, payload)])
    else
      ⟨.ok (), bytes_read, messages_read, calls⟩

/-- Observable outcome of `ManyToOneRingBuffer::read_n`: the returned
`Result<usize>` plus (as ghost observations) the head snapshot, the loop
counters, the handler invocations, and the post state. -/
structure ReadNOut where
  result : Except AeronError Nat
  head : Int
  head_index : Int
  bytes_read : Int
  messages_read : Nat
  calls : List (Int × List Int)
  rb : ManyToOneRingBuffer

namespace ManyToOneRingBuffer

/-- `ManyToOneRingBuffer::read_n`.  The cleanup closure runs on both the
normal and the error exit of the loop; its own `.unwrap()` panics are
modelled as errors.  `head & (capacity - 1)` is `head % capacity` for the
power-of-two capacity, narrowed to `IndexT`. -/
def read_n (rb : ManyToOneRingBuffer) (limit : Nat) : ReadNOut :=
  match rb.buffer.get_i64 rb.head_position_index with
  | .error e => ⟨.error e, 0, 0, 0, 0, [], rb⟩
  | .ok head =>
    let head_index := i32cast (head % rb.capacity)
    let contiguous_block_length := rb.capacity - head_index
    let L := readLoop rb.buffer head_index contiguous_block_length limit
      (contiguous_block_length.toNat / 8 + 2) 0 0 []
    if L.bytes_read ≠ 0 then
      match rb.buffer.set_memory head_index L.bytes_read 0 with
      | .error e => ⟨.error e, head, head_index, L.bytes_read, L.messages_read, L.calls, rb⟩
      | .ok bufz =>
        match bufz.put_i64_ordered rb.head_position_index (head + L.bytes_read) with
        | .error e => ⟨.error e, head, head_index, L.bytes_read, L.messages_read, L.calls, rb⟩
        | .ok bufh =>
          ⟨L.res.map (fun _ => L.messages_read), head, head_index, L.bytes_read,
            L.messages_read, L.calls, { rb with buffer := bufh }⟩
    else
      ⟨L.res.map (fun _ => L.messages_read), head, head_index, L.bytes_read,
        L.messages_read, L.calls, rb⟩

end ManyToOneRingBuffer

namespace broadcast_descriptor

/-- `TAIL_INTENT_COUNTER_OFFSET`. -/
def TAIL_INTENT_COUNTER_OFFSET : Int := 0

/-- `TAIL_COUNTER_OFFSET`. -/
def TAIL_COUNTER_OFFSET : Int := 8

/-- `LATEST_COUNTER_OFFSET`. -/
def LATEST_COUNTER_OFFSET : Int := 16

/-- `TRAILER_LENGTH = CACHE_LINE_LENGTH * 2`. -/
def TRAILER_LENGTH : Int := 128

/-- `broadcast::buffer_descriptor::check_capacity`. -/
def check_capacity (capacity : Int) : Except AeronError Unit :=
  if is_power_of_two capacity then .ok () else .error .IllegalArgument

end broadcast_descriptor

namespace broadcast_record

/-- `PADDING_MSG_TYPE_ID`. -/
def PADDING_MSG_TYPE_ID : Int := -1

/-- `HEADER_LENGTH`. -/
def HEADER_LENGTH : Int := 8

/-- `RECORD_ALIGNMENT = HEADER_LENGTH`. -/
def RECORD_ALIGNMENT : Int := HEADER_LENGTH

/-- `length_offset`. -/
def length_offset (record_offset : Int) : Int := record_offset + 0

/-- `type_offset`. -/
def type_offset (record_offset : Int) : Int := record_offset + 4

/-- `msg_offset`. -/
def msg_offset (record_offset : Int) : Int := record_offset + HEADER_LENGTH

end broadcast_record

/-- `BroadcastReceiver` state.  The `AtomicI64 lapped_count` is modelled as a
plain integer in the sequential execution. -/
structure BroadcastReceiver where
  buffer : Buf
  capacity : Int
  mask : Int
  tail_intent_counter_index : Int
  tail_counter_index : Int
  latest_counter_index : Int
  record_offset : Int
  cursor : Int
  next_record : Int
  lapped_count : Int

namespace BroadcastReceiver

/-- `BroadcastReceiver::new`.  `(cursor as i32) & mask` narrows the i64
cursor to i32 first and then masks; the all-ones mask is `% (mask + 1)`. -/
def new (buffer : Buf) : Except AeronError BroadcastReceiver := do
  let capacity := buffer.capacity - broadcast_descriptor.TRAILER_LENGTH
  broadcast_descriptor.check_capacity capacity
  let mask := capacity - 1
  let latest_counter_index := capacity + broadcast_descriptor.LATEST_COUNTER_OFFSET
  let cursor ← buffer.get_i64 latest_counter_index
  return { buffer := buffer
           capacity := capacity
           mask := mask
           tail_intent_counter_index := capacity + broadcast_descriptor.TAIL_INTENT_COUNTER_OFFSET
           tail_counter_index := capacity + broadcast_descriptor.TAIL_COUNTER_OFFSET
           latest_counter_index := latest_counter_index
           record_offset := i32cast cursor % (mask + 1)
           cursor := cursor
           next_record := cursor
           lapped_count := 0 }

/-- `BroadcastReceiver::_validate(cursor)`:
`cursor + capacity > tail_intent` (volatile read, `.unwrap()` on an offset
known in bounds, hence a raw read in the model). -/
def _validate (r : BroadcastReceiver) (cursor : Int) : Bool :=
  cursor + r.capacity > read_i64 r.buffer.mem r.tail_intent_counter_index

/-- `BroadcastReceiver::validate`. -/
def validate (r : BroadcastReceiver) : Bool := r._validate r.cursor

/-- `BroadcastReceiver::length`: stored record length minus the header. -/
def length (r : BroadcastReceiver) : Except AeronError Int := do
  let l ← r.buffer.get_i32 (broadcast_record.length_offset r.record_offset)
  return l - broadcast_record.HEADER_LENGTH

/-- `BroadcastReceiver::offset`. -/
def offset (r : BroadcastReceiver) : Int := broadcast_record.msg_offset r.record_offset

/-- `BroadcastReceiver::msg_type_id`. -/
def msg_type_id (r : BroadcastReceiver) : Except AeronError Int :=
  r.buffer.get_i32 (broadcast_record.type_offset r.record_offset)

/-- `BroadcastReceiver::receive_next`.  `align(len as usize, 8) as i64`:
the usize image of the i32 length is its value mod `2^64`, and the aligned
result is narrowed back to i64. -/
def receive_next (r0 : BroadcastReceiver) : Except AeronError (Bool × BroadcastReceiver) := do
  let mut r := r0
  let mut is_available := false
  let tail ← r.buffer.get_i64_volatile r.tail_counter_index
  let mut cursor := r.next_record
  if tail > cursor then
    if !(r._validate cursor) then
      r := { r with lapped_count := r.lapped_count + 1 }
      cursor ← r.buffer.get_i64 r.latest_counter_index
    let mut record_offset := i32cast cursor % (r.mask + 1)
    r := { r with cursor := cursor }
    let len0 ← r.buffer.get_i32 (broadcast_record.length_offset record_offset)
    r := { r with next_record :=
      cursor + i64cast (align (len0 % 2 ^ 64) broadcast_record.RECORD_ALIGNMENT) }
    let ty0 ← r.buffer.get_i32 (broadcast_record.type_offset record_offset)
    if broadcast_record.PADDING_MSG_TYPE_ID = ty0 then
      record_offset := 0
      r := { r with cursor := r.next_record }
      let len1 ← r.buffer.get_i32 (broadcast_record.length_offset record_offset)
      r := { r with next_record :=
        r.next_record + i64cast (align (len1 % 2 ^ 64) broadcast_record.RECORD_ALIGNMENT) }
    r := { r with record_offset := record_offset }
    is_available := true
  return (is_available, r)

end BroadcastReceiver

/-- `CopyBroadcastReceiver`: a receiver plus the internal scratch `Vec<u8>`.
`Vec::with_capacity(4096)` allocates room for 4096 bytes but produces a
vector of length 0, and `AtomicBuffer::capacity` for a `Vec<u8>` is its
length, so the scratch starts as a zero-length buffer. -/
structure CopyBroadcastReceiver where
  receiver : BroadcastReceiver
  scratch : Buf

namespace CopyBroadcastReceiver

/-- `CopyBroadcastReceiver::new`. -/
def new (receiver : BroadcastReceiver) : CopyBroadcastReceiver :=
  ⟨receiver, ⟨0, fun _ => 0⟩⟩

/-- `CopyBroadcastReceiver::receive`: returns the message count and (as a
ghost observation) the handler invocations `(msg_type_id, payload)`. -/
def receive (c0 : CopyBroadcastReceiver) :
    Except AeronError (Int × CopyBroadcastReceiver × List (Int × List Int)) := do
  let mut c := c0
  let mut messages_received : Int := 0
  let mut calls : List (Int × List Int) := []
  let last_seen_lapped_count := c.receiver.lapped_count
  let (avail, rcv) ← c.receiver.receive_next
  c := { c with receiver := rcv }
  if avail then
    if last_seen_lapped_count ≠ c.receiver.lapped_count then
      throw .IllegalState
    let length ← c.receiver.length
    if length > c.scratch.capacity then
      throw .IllegalState
    let msg_type_id ← c.receiver.msg_type_id
    let scratch1 ← c.scratch.put_bytes 0 c.receiver.buffer c.receiver.offset length
    c := { c with scratch := scratch1 }
    if !c.receiver.validate then
      throw .IllegalState
    calls := calls ++ [(msg_type_id, readBytesList c.scratch.mem 0 length.toNat)]
    messages_received := messages_received + 1
  return (messages_received, c, calls)

end CopyBroadcastReceiver

instance {ε α : Type} [DecidableEq ε] [DecidableEq α] : DecidableEq (Except ε α) := fun a b =>
  match a, b with
  | .ok x, .ok y => if h : x = y then isTrue (by simp [h]) else isFalse (by simp [h])
  | .error x, .error y => if h : x = y then isTrue (by simp [h]) else isFalse (by simp [h])
  | .ok _, .error _ => isFalse (by simp)
  | .error _, .ok _ => isFalse (by simp)

/-- Extract a constructed ring buffer (junk value on the error side, used only
after construction has been checked to succeed). -/
def rbOf (r : Except AeronError ManyToOneRingBuffer) : ManyToOneRingBuffer :=
  match r with
  | .ok rb => rb
  | .error _ => ⟨⟨0, fun _ => 0⟩, 0, 0, 0, 0, 0, 0, 0⟩

/-- Whether ring construction succeeded. -/
def newRingOk (b : Buf) : Bool :=
  match ManyToOneRingBuffer.new b with
  | .ok _ => true
  | .error _ => false

/-- Project the boolean result out of a `write` call. -/
def writeFlagOf (r : Except AeronError (Bool × ManyToOneRingBuffer)) : Except AeronError Bool :=
  r.map Prod.fst

/-- Project the post-state buffer out of a `write` call. -/
def writeBufOf (r : Except AeronError (Bool × ManyToOneRingBuffer)) : Buf :=
  match r with
  | .ok (_, rb) => rb.buffer
  | .error _ => ⟨0, fun _ => 0⟩

/-- Extract a constructed broadcast receiver (junk value on the error side). -/
def brOf (r : Except AeronError BroadcastReceiver) : BroadcastReceiver :=
  match r with
  | .ok x => x
  | .error _ => ⟨⟨0, fun _ => 0⟩, 0, 0, 0, 0, 0, 0, 0, 0, 0⟩

/-- Project the availability flag out of `receive_next`. -/
def recvFlagOf (r : Except AeronError (Bool × BroadcastReceiver)) : Except AeronError Bool :=
  r.map Prod.fst

/-- Project the post state out of `receive_next`. -/
def recvStateOf (r : Except AeronError (Bool × BroadcastReceiver)) : BroadcastReceiver :=
  match r with
  | .ok (_, x) => x
  | .error _ => ⟨⟨0, fun _ => 0⟩, 0, 0, 0, 0, 0, 0, 0, 0, 0⟩

/-- Project the message count out of `CopyBroadcastReceiver::receive`. -/
def copyCountOf (r : Except AeronError (Int × CopyBroadcastReceiver × List (Int × List Int))) :
    Except AeronError Int :=
  r.map Prod.fst

/- Scenario S3 (claim C1): capacity 1024 ring, tail_position = 1016,
head_position = 984 (trailer fields at 1024+128 and 1024+384, little-endian:
1016 = 0x3F8, 984 = 0x3D8), all other bytes zero. -/

/-- Backing region for scenario S3. -/
def s3buf : Buf :=
  ⟨1792, fun x =>
    if x = 1152 then 248 else if x = 1153 then 3 else
    if x = 1408 then 216 else if x = 1409 then 3 else 0⟩

/-- A 128-byte all-zero source buffer. -/
def zsrc : Buf := ⟨128, fun _ => 0⟩

/-- The S3 write call: `write(type_id = 101, length = 100)`. -/
def s3res : Except AeronError (Bool × ManyToOneRingBuffer) :=
  (rbOf (ManyToOneRingBuffer.new s3buf)).write 101 zsrc 0 100

/-- C1 (scenario S3, wrap with padding): on the capacity-1024 ring with
`tail_position = 1016` and `head_position = 984`, `write(101, length 100)`
returns `Ok(true)`; a padding header with length 8 and type -1 sits at
byte offset 1016; the actual record (length 108, type 101) starts at byte
offset 0; and `tail_position` (the i64 at offset 1152) reads 1136. -/
theorem C1_wrap_with_padding :
    newRingOk s3buf = true ∧
    writeFlagOf s3res = .ok true ∧
    read_i32 (writeBufOf s3res).mem 1016 = 8 ∧
    read_i32 (writeBufOf s3res).mem 1020 = -1 ∧
    read_i32 (writeBufOf s3res).mem 0 = 108 ∧
    read_i32 (writeBufOf s3res).mem 4 = 101 ∧
    read_i64 (writeBufOf s3res).mem 1152 = 1136 :=
  ⟨by decide, by decide, by decide, by decide, by decide, by decide, by decide⟩

/- Scenario S2 (claim C3): tail_position = 1024 (bytes 0x00 0x04 at 1152),
head_position = 0. -/

/-- Backing region for scenario S2. -/
def s2buf : Buf := ⟨1792, fun x => if x = 1153 then 4 else 0⟩

/-- The S2 write call: `write(type_id = 101, length = 8)`. -/
def s2res : Except AeronError (Bool × ManyToOneRingBuffer) :=
  (rbOf (ManyToOneRingBuffer.new s2buf)).write 101 zsrc 0 8

/-- C3 (scenario S2, reject when full): on the capacity-1024 ring with
`head_position = 0` and `tail_position = 1024`, `write(101, length 8)`
returns `Ok(false)` — the non-fatal back-pressure signal, not an error —
and `tail_position` still reads 1024. -/
theorem C3_reject_when_full :
    newRingOk s2buf = true ∧
    writeFlagOf s2res = .ok false ∧
    read_i64 (writeBufOf s2res).mem 1152 = 1024 :=
  ⟨by decide, by decide, by decide⟩

/- Scenario S4 (claims C7, C4): capacity 1024 broadcast buffer, record header
at 0 with length 16 and type 7, tail = tail_intent = 16, latest = 0. -/

/-- Backing region for scenario S4. -/
def s4buf : Buf :=
  ⟨1152, fun x =>
    if x = 0 then 16 else if x = 4 then 7 else
    if x = 1024 then 16 else if x = 1032 then 16 else 0⟩

/-- The freshly constructed S4 receiver. -/
def s4r0 : BroadcastReceiver := brOf (BroadcastReceiver.new s4buf)

/-- The S4 `receive_next` call. -/
def s4step : Except AeronError (Bool × BroadcastReceiver) := s4r0.receive_next

/-- C7 (scenario S4, broadcast first-message receive): over the capacity-1024
broadcast buffer with `tail = tail_intent = 16` and a record header
(length 16, type 7) at offset 0, a freshly constructed receiver's
`receive_next` returns true, after which `msg_type_id() = 7`,
`length() = 8`, `offset() = 8`, and `validate()` returns true. -/
theorem C7_broadcast_first_receive :
    recvFlagOf s4step = .ok true ∧
    (recvStateOf s4step).msg_type_id = .ok 7 ∧
    (recvStateOf s4step).length = .ok 8 ∧
    (recvStateOf s4step).offset = 8 ∧
    (recvStateOf s4step).validate = true :=
  ⟨by decide, by decide, by decide, by decide, by decide⟩

/-- The C4 `CopyBroadcastReceiver::receive` call over the S4 state. -/
def s4copyRes : Except AeronError (Int × CopyBroadcastReceiver × List (Int × List Int)) :=
  (CopyBroadcastReceiver.new s4r0).receive

/-- C4: on a freshly constructed `CopyBroadcastReceiver` over the S4 buffer
every condition of the claim is met — `receive_next` finds the pending
8-byte message, no lap is observed (`lapped_count` unchanged at 0), the
message length 8 does not exceed the 4096 bytes the scratch was allocated
with, and `validate` succeeds — yet `receive` returns
`Err(IllegalState)` instead of invoking the handler and returning `Ok(1)`:
the scratch `Vec::with_capacity(4096)` has length 0, and
`AtomicBuffer::capacity` for a `Vec<u8>` is its length, so the
`length > scratch capacity` guard rejects every nonempty message. -/
theorem C4_copy_receive_illegal_state :
    recvFlagOf s4step = .ok true ∧
    (recvStateOf s4step).lapped_count = s4r0.lapped_count ∧
    (recvStateOf s4step).length = .ok 8 ∧
    ((8 : Int) ≤ 4096) ∧
    (recvStateOf s4step).validate = true ∧
    (CopyBroadcastReceiver.new s4r0).scratch.capacity = 0 ∧
    copyCountOf s4copyRes = .error .IllegalState :=
  ⟨by decide, by decide, by decide, by decide, by decide, by decide, by decide⟩

/- A capacity-1024 ring whose data region holds a single committed record at
offset 0 with length 1784 (bytes 0xF8 0x06) and type 5, with
head_position = tail_position = 0.  All the §3 counter invariants hold
(`tail - head = 0 ≤ capacity`), yet the record reaches past the capacity
boundary into the trailer. -/

/-- Backing region with an oversized committed record. -/
def longRecBuf : Buf :=
  ⟨1792, fun x => if x = 0 then 248 else if x = 1 then 6 else if x = 4 then 5 else 0⟩

/-- The ring constructed over `longRecBuf`. -/
def longRecRb : ManyToOneRingBuffer := rbOf (ManyToOneRingBuffer.new longRecBuf)

/- A capacity-1024 ring holding one well-formed record at offset 0:
length 16, type 101, 8-byte zero payload; head_position = 0,
tail_position = 16. -/

/-- Backing region with a single committed 16-byte record. -/
def oneRecBuf : Buf :=
  ⟨1792, fun x => if x = 0 then 16 else if x = 4 then 101 else if x = 1152 then 16 else 0⟩

/-- The ring constructed over `oneRecBuf`. -/
def oneRecRb : ManyToOneRingBuffer := rbOf (ManyToOneRingBuffer.new oneRecBuf)

/- ------------------------------------------------------------------ -/
/- Helper lemmas about the integer and byte-memory model.             -/
/- ------------------------------------------------------------------ -/

lemma i32cast_eq {v : Int} (h1 : -(2 ^ 31) ≤ v) (h2 : v < 2 ^ 31) : i32cast v = v := by
  unfold i32cast toSigned
  norm_num
  omega

lemma i32cast_bounds (v : Int) : -(2 ^ 31) ≤ i32cast v ∧ i32cast v < 2 ^ 31 := by
  unfold i32cast toSigned
  norm_num
  omega

lemma toSigned64_of_range {x : Int} (h1 : -(2 ^ 63) ≤ x) (h2 : x < 2 ^ 63) :
    toSigned 64 (x % 2 ^ 64) = x := by
  unfold toSigned
  norm_num
  omega

/-- Decomposing a euclidean remainder by `256 * N` into its low byte and the
remainder of the quotient. -/
lemma emod_mul256_decompose (v N : Int) (hN : 0 < N) :
    v % (256 * N) = v % 256 + 256 * (v / 256 % N) := by
  have hv : 256 * (v / 256) + v % 256 = v := Int.ediv_add_emod v 256
  have hq : N * (v / 256 / N) + v / 256 % N = v / 256 := Int.ediv_add_emod (v / 256) N
  have hr0 : 0 ≤ v % 256 := Int.emod_nonneg v (by norm_num)
  have hr1 : v % 256 < 256 := Int.emod_lt_of_pos v (by norm_num)
  have hs0 : 0 ≤ v / 256 % N := Int.emod_nonneg (v / 256) (by omega)
  have hs1 : v / 256 % N < N := Int.emod_lt_of_pos (v / 256) hN
  have hveq : v = (v % 256 + 256 * (v / 256 % N)) + 256 * N * (v / 256 / N) := by
    nlinarith [hv, hq]
  calc v % (256 * N)
      = ((v % 256 + 256 * (v / 256 % N)) + 256 * N * (v / 256 / N)) % (256 * N) := by
        rw [← hveq]
    _ = (v % 256 + 256 * (v / 256 % N)) % (256 * N) := by
        rw [Int.add_mul_emod_self_left]
    _ = v % 256 + 256 * (v / 256 % N) := by
        apply Int.emod_eq_of_lt (by omega) (by nlinarith)

lemma putBytesLE_lt {x off : Int} (m : Int → Int) (w : Nat) (v : Int) (hx : x < off) :
    putBytesLE m off w v x = m x := by
  induction w generalizing m off v with
  | zero => rfl
  | succ n ih =>
    unfold putBytesLE
    rw [ih _ _ (by omega)]
    simp only [if_neg (show ¬x = off by omega)]

lemma getBytesLE_put_same (m : Int → Int) (off : Int) (w : Nat) (v : Int) :
    getBytesLE (putBytesLE m off w v) off w = v % 2 ^ (8 * w) := by
  induction w generalizing m off v with
  | zero => simp [getBytesLE, putBytesLE]
  | succ n ih =>
    unfold getBytesLE putBytesLE
    rw [ih]
    have hbyte : putBytesLE (fun x => if x = off then v % 256 else m x) (off + 1) n (v / 256) off
        = v % 256 := by
      rw [putBytesLE_lt _ n _ (by omega)]
      simp
    rw [hbyte]
    have h256 : (2 : Int) ^ (8 * (n + 1)) = 256 * 2 ^ (8 * n) := by
      rw [show 8 * (n + 1) = 8 + 8 * n by ring, pow_add]
      norm_num
    rw [h256, emod_mul256_decompose v (2 ^ (8 * n)) (by positivity)]
    omega

lemma read_i64_put_same (m : Int → Int) (off v : Int) :
    read_i64 (putBytesLE m off 8 v) off = toSigned 64 (v % 2 ^ 64) := by
  unfold read_i64
  rw [getBytesLE_put_same]

/- ------------------------------------------------------------------ -/
/- Inversion lemmas for the checked buffer operations.                -/
/- ------------------------------------------------------------------ -/

lemma get_i64_ok {b : Buf} {off x : Int} (h : b.get_i64 off = .ok x) :
    x = read_i64 b.mem off := by
  unfold Buf.get_i64 Buf.bounds_check bounds_check_slice at h
  split at h <;> simp_all [bind, Except.bind, pure, Except.pure]

lemma set_memory_ok {b : Buf} {off len v : Int} {b2 : Buf}
    (h : b.set_memory off len v = .ok b2) :
    b2 = ⟨b.len, fun x => if off ≤ x ∧ x < off + len then v % 256 else b.mem x⟩ := by
  unfold Buf.set_memory Buf.bounds_check bounds_check_slice at h
  split at h <;> simp_all [bind, Except.bind, pure, Except.pure]

lemma put_i64_ordered_ok {b : Buf} {off v : Int} {b2 : Buf}
    (h : b.put_i64_ordered off v = .ok b2) :
    b2 = ⟨b.len, putBytesLE b.mem off 8 v⟩ := by
  unfold Buf.put_i64_ordered Buf.bounds_check bounds_check_slice at h
  split at h <;> simp_all [bind, Except.bind, pure, Except.pure]

/- ------------------------------------------------------------------ -/
/- Inversion of ring construction.                                    -/
/- ------------------------------------------------------------------ -/

lemma new_fields {buf : Buf} {rb : ManyToOneRingBuffer}
    (h : ManyToOneRingBuffer.new buf = .ok rb) :
    rb.buffer = buf ∧ rb.capacity = i32cast buf.len - 768 ∧
    rb.max_msg_length = rb.capacity / 8 ∧
    rb.tail_position_index = rb.capacity + 128 ∧
    rb.head_cache_position_index = rb.capacity + 256 ∧
    rb.head_position_index = rb.capacity + 384 ∧
    is_power_of_two rb.capacity = true := by
  simp only [ManyToOneRingBuffer.new, buffer_descriptor.check_capacity, bind, Except.bind,
    pure, Except.pure] at h
  split at h
  case h_1 hpow =>
    simp at h
  case h_2 hpow =>
    simp only [Except.ok.injEq] at h
    subst h
    have hp : is_power_of_two (buf.capacity - buffer_descriptor.TRAILER_LENGTH) = true := by
      by_contra hc
      rw [if_neg hc] at hpow
      exact absurd hpow (by simp)
    exact ⟨rfl, rfl, rfl, rfl, rfl, rfl, hp⟩

lemma is_power_of_two_pos {c : Int} (h : is_power_of_two c = true) : 0 < c := by
  unfold is_power_of_two at h
  exact of_decide_eq_true ((Bool.and_eq_true _ _).mp h).1

lemma is_power_of_two_true_iff {idx : Int} (hlt : idx < 2 ^ 31) :
    is_power_of_two idx = true ↔ ∃ k : Nat, idx = 2 ^ k := by
  unfold is_power_of_two u32_is_power_of_two
  rw [Bool.and_eq_true, List.any_eq_true]
  constructor
  · rintro ⟨-, k, -, hk⟩
    exact ⟨k, by simpa using hk⟩
  · rintro ⟨k, rfl⟩
    refine ⟨decide_eq_true (by positivity), k, List.mem_range.mpr ?_, by simp⟩
    by_contra hk
    push_neg at hk
    have h31 : (2 : Int) ^ 31 ≤ 2 ^ k := pow_le_pow_right₀ (by norm_num) (by omega)
    omega

/- ------------------------------------------------------------------ -/
/- Claim theorems.                                                    -/
/- ------------------------------------------------------------------ -/

/-- C10: header pack/unpack round-trip.  For every i32 `length` (including
the negative in-progress values) and every i32 `msg_type_id`,
`record_length (make_header length msg_type_id) = length` and
`message_type_id (make_header length msg_type_id) = msg_type_id`. -/
theorem C10_header_roundtrip (length msg_type_id : Int)
    (hl1 : -(2 ^ 31) ≤ length) (hl2 : length < 2 ^ 31)
    (ht1 : -(2 ^ 31) ≤ msg_type_id) (ht2 : msg_type_id < 2 ^ 31) :
    record_descriptor.record_length (record_descriptor.make_header length msg_type_id) =
      length ∧
    record_descriptor.message_type_id (record_descriptor.make_header length msg_type_id) =
      msg_type_id := by
  unfold record_descriptor.record_length record_descriptor.message_type_id
    record_descriptor.make_header i32cast toSigned
  norm_num
  constructor <;> (split_ifs <;> omega)

/-- Witness for C10 at `length = -5`, `msg_type_id = 7`. -/
theorem C10_header_roundtrip_witness :
    (-(2 ^ 31) ≤ (-5 : Int)) ∧ ((-5 : Int) < 2 ^ 31) ∧
    (-(2 ^ 31) ≤ (7 : Int)) ∧ ((7 : Int) < 2 ^ 31) ∧
    record_descriptor.record_length (record_descriptor.make_header (-5) 7) = -5 ∧
    record_descriptor.message_type_id (record_descriptor.make_header (-5) 7) = 7 :=
  ⟨by decide, by decide, by decide, by decide,
    (C10_header_roundtrip (-5) 7 (by decide) (by decide) (by decide) (by decide)).1,
    (C10_header_roundtrip (-5) 7 (by decide) (by decide) (by decide) (by decide)).2⟩

/-- C9: for every byte region of length `len` (any real slice length:
`0 ≤ len < 2^31`) and all offsets and sizes, `bounds_check` succeeds iff
`0 ≤ offset ∧ 0 ≤ size ∧ offset + size ≤ len`, and fails with OutOfBounds
otherwise. -/
theorem C9_bounds_check (len offset size : Int) (h0 : 0 ≤ len) (h1 : len < 2 ^ 31) :
    (bounds_check_slice len offset size = .ok () ↔
      0 ≤ offset ∧ 0 ≤ size ∧ offset + size ≤ len) ∧
    (bounds_check_slice len offset size = .error .OutOfBounds ↔
      ¬(0 ≤ offset ∧ 0 ≤ size ∧ offset + size ≤ len)) := by
  have hc : i32cast len = len := i32cast_eq (by omega) h1
  unfold bounds_check_slice
  rw [hc]
  by_cases hcond : offset < 0 ∨ size < 0 ∨ len - offset < size
  · rw [if_pos hcond]
    refine ⟨⟨fun hh => absurd hh (by simp), fun hh => absurd hcond (by omega)⟩,
      ⟨fun _ => by omega, fun _ => rfl⟩⟩
  · rw [if_neg hcond]
    refine ⟨⟨fun _ => by omega, fun _ => rfl⟩,
      ⟨fun hh => absurd hh (by simp), fun hh => absurd hcond (by omega)⟩⟩

/-- Witness for C9 at `len = 8`, `offset = 1`, `size = 7`. -/
theorem C9_bounds_check_witness :
    ((0 : Int) ≤ 8) ∧ ((8 : Int) < 2 ^ 31) ∧ bounds_check_slice 8 1 7 = .ok () :=
  ⟨by decide, by decide,
    ((C9_bounds_check 8 1 7 (by decide) (by decide)).1).mpr (by decide)⟩

/-- C5: for every constructed ring buffer, `write` fails with IllegalArgument
whenever `msg_type_id < 1` or `length > capacity / 8` (the max message
length); the checks run before `claim_capacity` and before anything touches
the backing region, so the erroneous call performs no mutation (the model
returns no new state). -/
theorem C5_write_arg_checks (buf : Buf) (rb : ManyToOneRingBuffer) (source : Buf)
    (source_index length msg_type_id : Int)
    (hnew : ManyToOneRingBuffer.new buf = .ok rb)
    (h : msg_type_id < 1 ∨ length > rb.capacity / 8) :
    rb.write msg_type_id source source_index length = .error .IllegalArgument := by
  obtain ⟨-, -, hmax, -, -, -, -⟩ := new_fields hnew
  unfold ManyToOneRingBuffer.write record_descriptor.check_msg_type_id
    ManyToOneRingBuffer.check_msg_length
  by_cases ht : msg_type_id < 1
  · rw [if_pos ht]
    rfl
  · have hl : length > rb.max_msg_length := by
      rw [hmax]
      omega
    rw [if_neg ht, if_pos hl]
    rfl

/-- Witness for C5 at the constructed capacity-1024 ring and
`msg_type_id = 0`. -/
theorem C5_write_arg_checks_witness :
    ManyToOneRingBuffer.new oneRecBuf = .ok oneRecRb ∧
    ((0 : Int) < 1 ∨ (8 : Int) > oneRecRb.capacity / 8) ∧
    oneRecRb.write 0 zsrc 0 8 = .error .IllegalArgument :=
  ⟨rfl, Or.inl (by decide),
    C5_write_arg_checks oneRecBuf oneRecRb zsrc 0 8 0 rfl (Or.inl (by decide))⟩

lemma new_result (len : Int) (mem : Int → Int) (h0 : 0 ≤ len) (h1 : len < 2 ^ 31) :
    (is_power_of_two (len - 768) = true → newRingOk ⟨len, mem⟩ = true) ∧
    (is_power_of_two (len - 768) = false →
      ManyToOneRingBuffer.new ⟨len, mem⟩ = .error .IllegalArgument) := by
  have hc : Buf.capacity ⟨len, mem⟩ = len := by
    show i32cast len = len
    exact i32cast_eq (by omega) h1
  unfold newRingOk ManyToOneRingBuffer.new buffer_descriptor.check_capacity
  rw [hc]
  simp only [buffer_descriptor.TRAILER_LENGTH]
  constructor
  · intro hp
    rw [if_pos hp]
    rfl
  · intro hp
    rw [if_neg (by simp [hp])]
    rfl

/-- C6 counterexample: a backing region of length `769 = 1 + TRAILER_LENGTH`
(capacity 1, which is `2^0`, not `2^k` for `k ≥ 1`) constructs successfully,
whereas the claim says every such region must be rejected with
IllegalArgument. -/
theorem C6_counterexample : newRingOk ⟨769, fun _ => 0⟩ = true := by decide

/-- C6 (amended): construction succeeds for every region of length
`2^k + TRAILER_LENGTH` with `k ≥ 0` — the code accepts capacity 1 because
`is_power_of_two(1)` holds — and fails with IllegalArgument for every other
region length (in particular for regions shorter than the trailer). -/
theorem C6_construction (len : Int) (mem : Int → Int) (h0 : 0 ≤ len) (h1 : len < 2 ^ 31) :
    ((∃ k : Nat, len = 2 ^ k + 768) → newRingOk ⟨len, mem⟩ = true) ∧
    ((¬∃ k : Nat, len = 2 ^ k + 768) →
      ManyToOneRingBuffer.new ⟨len, mem⟩ = .error .IllegalArgument) := by
  have hiff : is_power_of_two (len - 768) = true ↔ ∃ k : Nat, len - 768 = 2 ^ k :=
    is_power_of_two_true_iff (by omega)
  have hres := new_result len mem h0 h1
  constructor
  · rintro ⟨k, rfl⟩
    exact hres.1 (hiff.mpr ⟨k, by omega⟩)
  · intro hn
    refine hres.2 ?_
    rw [Bool.eq_false_iff]
    intro hp
    obtain ⟨k, hk⟩ := hiff.mp hp
    exact hn ⟨k, by omega⟩

/-- Witness for the amended C6 at region length 1792 (capacity `2^10`). -/
theorem C6_construction_witness :
    ((0 : Int) ≤ 1792) ∧ ((1792 : Int) < 2 ^ 31) ∧
    newRingOk ⟨1792, fun _ => 0⟩ = true :=
  ⟨by decide, by decide,
    (C6_construction 1792 (fun _ => 0) (by decide) (by decide)).1 ⟨10, by decide⟩⟩

lemma readLoop_calls_no_padding (buf : Buf) (hi cont : Int) (limit : Nat) :
    ∀ (fuel : Nat) (br : Int) (mr : Nat) (cs : List (Int × List Int)),
      (∀ c ∈ cs, c.1 ≠ record_descriptor.PADDING_MSG_TYPE_ID) →
      ∀ c ∈ (readLoop buf hi cont limit fuel br mr cs).calls,
        c.1 ≠ record_descriptor.PADDING_MSG_TYPE_ID := by
  intro fuel
  induction fuel with
  | zero =>
    intro br mr cs hcs c hc
    exact hcs c hc
  | succ f ih =>
    intro br mr cs hcs c hc
    simp only [readLoop] at hc
    split at hc
    · split at hc
      · exact hcs c hc
      · split at hc
        · exact hcs c hc
        · split at hc
          · exact ih _ _ _ hcs c hc
          · refine ih _ _ _ ?_ c hc
            intro d hd
            rcases List.mem_append.mp hd with hd1 | hd2
            · exact hcs d hd1
            · have hde := List.mem_singleton.mp hd2
              subst hde
              simpa using (by assumption : ¬_ = record_descriptor.PADDING_MSG_TYPE_ID)
    · exact hcs c hc

/-- C8: for every ring buffer state and every `read_n` execution, the handler
is never invoked for a padding record: every recorded handler invocation
carries a message type identifier different from `PADDING_MSG_TYPE_ID`
(i.e. from -1); padding records only advance the consumed-byte count. -/
theorem C8_no_padding_delivered (rb : ManyToOneRingBuffer) (limit : Nat) :
    ∀ c ∈ (rb.read_n limit).calls, c.1 ≠ record_descriptor.PADDING_MSG_TYPE_ID := by
  intro c hc
  have hnil : ∀ d ∈ ([] : List (Int × List Int)),
      d.1 ≠ record_descriptor.PADDING_MSG_TYPE_ID := by
    intro d hd
    exact absurd hd (List.not_mem_nil d)
  unfold ManyToOneRingBuffer.read_n at hc
  split at hc
  · exact absurd hc (List.not_mem_nil c)
  · dsimp only at hc
    split at hc
    · split at hc
      · exact readLoop_calls_no_padding _ _ _ _ _ _ _ _ hnil c hc
      · split at hc
        · exact readLoop_calls_no_padding _ _ _ _ _ _ _ _ hnil c hc
        · exact readLoop_calls_no_padding _ _ _ _ _ _ _ _ hnil c hc
    · exact readLoop_calls_no_padding _ _ _ _ _ _ _ _ hnil c hc

/-- Witness for C8: on the ring holding one committed type-101 record, the
handler call list contains that record and its type is not the padding id. -/
theorem C8_no_padding_delivered_witness :
    ((101, List.replicate 8 0) ∈ (oneRecRb.read_n 10).calls) ∧
    (((101 : Int), List.replicate 8 (0 : Int)).1 ≠ record_descriptor.PADDING_MSG_TYPE_ID) :=
  ⟨by decide,
    C8_no_padding_delivered oneRecRb 10 (101, List.replicate 8 0) (by decide)⟩

/-- C2 counterexample: over the legally constructed capacity-1024 ring
`longRecRb` (whose §3 counter invariants all hold: `head = tail = 0`), whose
data region holds one committed record with length 1784 and type 5, `read_n`
returns `Ok(1)` after consuming 1784 bytes from `head_index = 0` — yet byte
1408 of the consumed region is 248, not zero, because the cleanup's final
store of `head_position` (at offset `capacity + 384 = 1408`) lands inside
the memset-zeroed region.  So the claim's unconditional zeroing of the
consumed region fails on this state. -/
theorem C2_counterexample :
    newRingOk longRecBuf = true ∧
    (longRecRb.read_n 10).result = .ok 1 ∧
    (longRecRb.read_n 10).head_index = 0 ∧
    (longRecRb.read_n 10).bytes_read = 1784 ∧
    ((0 : Int) ≤ 1408 ∧ (1408 : Int) < 0 + 1784) ∧
    (longRecRb.read_n 10).rb.buffer.mem 1408 = 248 :=
  ⟨by decide, by decide, by decide, by decide, by decide, by decide⟩

/-- C2 (amended): for every constructed ring buffer state whose `read_n`
call returns normally, consumes at least one byte, and whose consumed bytes
do not extend past the capacity boundary (`bytes_read ≤ capacity -
head_index`, which holds for every record sequence produced by `write`),
every byte of the consumed region is zero when the call returns and
`head_position` has been advanced to `head + bytes_read`; when nothing is
consumed the state is unchanged.  (The head counter is additionally assumed
non-negative and far from i64 overflow, per the §3 monotone-counter
invariants.) -/
theorem C2_read_consumed_zeroed (buf : Buf) (rb : ManyToOneRingBuffer) (limit n : Nat)
    (hnew : ManyToOneRingBuffer.new buf = .ok rb)
    (hok : (rb.read_n limit).result = .ok n)
    (hcont : (rb.read_n limit).bytes_read ≤ rb.capacity - (rb.read_n limit).head_index)
    (hh0 : 0 ≤ (rb.read_n limit).head)
    (hh1 : (rb.read_n limit).head + rb.capacity < 2 ^ 63) :
    (0 < (rb.read_n limit).bytes_read →
      (∀ x : Int, (rb.read_n limit).head_index ≤ x →
        x < (rb.read_n limit).head_index + (rb.read_n limit).bytes_read →
        (rb.read_n limit).rb.buffer.mem x = 0) ∧
      read_i64 (rb.read_n limit).rb.buffer.mem rb.head_position_index =
        (rb.read_n limit).head + (rb.read_n limit).bytes_read) ∧
    ((rb.read_n limit).bytes_read = 0 → (rb.read_n limit).rb = rb) := by
  obtain ⟨hbuf, hcaplen, hmax, htp, hhc, hhp, hpow⟩ := new_fields hnew
  have hcpos : 0 < rb.capacity := is_power_of_two_pos hpow
  have hclt : rb.capacity < 2 ^ 31 := by
    have hb := i32cast_bounds buf.len
    omega
  unfold ManyToOneRingBuffer.read_n at hok hcont hh0 hh1 ⊢
  cases hget : rb.buffer.get_i64 rb.head_position_index with
  | error e =>
    rw [hget] at hok
    dsimp only at hok
    simp at hok
  | ok head =>
    rw [hget] at hok hcont hh0 hh1
    dsimp only at hok hcont hh0 hh1 ⊢
    set hi := i32cast (head % rb.capacity) with hhidef
    set L := readLoop rb.buffer hi (rb.capacity - hi) limit
      ((rb.capacity - hi).toNat / 8 + 2) 0 0 [] with hLdef
    have hhi0 : 0 ≤ hi ∧ hi < rb.capacity := by
      have h1 : 0 ≤ head % rb.capacity := Int.emod_nonneg head (by omega)
      have h2 : head % rb.capacity < rb.capacity := Int.emod_lt_of_pos head hcpos
      rw [hhidef, i32cast_eq (by omega) (by omega)]
      omega
    by_cases hbz : L.bytes_read = 0
    · rw [if_neg (not_not_intro hbz)] at hok hcont hh0 hh1 ⊢
      dsimp only at hok hcont hh0 hh1 ⊢
      constructor
      · intro hbpos
        omega
      · intro h0
        rfl
    · rw [if_pos hbz] at hok hcont hh0 hh1 ⊢
      cases hsm : rb.buffer.set_memory hi L.bytes_read 0 with
      | error e2 =>
        rw [hsm] at hok
        dsimp only at hok
        simp at hok
      | ok bufz =>
        rw [hsm] at hok hcont hh0 hh1
        dsimp only at hok hcont hh0 hh1 ⊢
        cases hput : bufz.put_i64_ordered rb.head_position_index (head + L.bytes_read) with
        | error e3 =>
          rw [hput] at hok
          dsimp only at hok
          simp at hok
        | ok bufh =>
          rw [hput] at hok hcont hh0 hh1
          dsimp only at hok hcont hh0 hh1 ⊢
          have hbz2 := set_memory_ok hsm
          have hbh := put_i64_ordered_ok hput
          subst hbz2
          subst hbh
          dsimp only
          constructor
          · intro hbpos
            constructor
            · intro x hx1 hx2
              have hxlt : x < rb.head_position_index := by omega
              rw [putBytesLE_lt _ 8 _ hxlt]
              simp only [if_pos (show hi ≤ x ∧ x < hi + L.bytes_read from ⟨hx1, hx2⟩)]
              decide
            · rw [read_i64_put_same]
              exact toSigned64_of_range (by omega) (by omega)
          · intro h0
            exact absurd h0 hbz

/-- Witness for the amended C2: on the ring holding one committed 16-byte
record, `read_n` returns `Ok(1)`, consumes 16 bytes, zeroes them (byte 3
checked through the theorem), and advances `head_position` to 16. -/
theorem C2_read_consumed_zeroed_witness :
    ManyToOneRingBuffer.new oneRecBuf = .ok oneRecRb ∧
    (oneRecRb.read_n 10).result = .ok 1 ∧
    (oneRecRb.read_n 10).bytes_read ≤ oneRecRb.capacity - (oneRecRb.read_n 10).head_index ∧
    (0 : Int) ≤ (oneRecRb.read_n 10).head ∧
    (oneRecRb.read_n 10).head + oneRecRb.capacity < 2 ^ 63 ∧
    (oneRecRb.read_n 10).rb.buffer.mem 3 = 0 ∧
    read_i64 (oneRecRb.read_n 10).rb.buffer.mem oneRecRb.head_position_index =
      (oneRecRb.read_n 10).head + (oneRecRb.read_n 10).bytes_read :=
  ⟨rfl, by decide, by decide, by decide, by decide,
    ((C2_read_consumed_zeroed oneRecBuf oneRecRb 10 1 rfl (by decide) (by decide)
      (by decide) (by decide)).1 (by decide)).1 3 (by decide) (by decide),
    ((C2_read_consumed_zeroed oneRecBuf oneRecRb 10 1 rfl (by decide) (by decide)
      (by decide) (by decide)).1 (by decide)).2⟩

end Aeron
